import Mathlib

/-!
Shallow embedding of `GPy/kern/_src/coregionalize.py` (class `Coregionalize`)
and verification of its specification.

Conventions of the embedding:
* real-valued numpy arrays are modelled over `ℚ` (exact arithmetic, executable);
* a numpy array of shape `(n, m)` is a function `Fin n → Fin m → ℚ`;
* the integer index vectors `X`, `X2` (numpy column arrays of output-channel
  labels in `[0, output_dim)`) are functions `Fin n → Fin d`;
* the scipy.weave C snippets are translated statement by statement, with the
  row-major flattening `A[r*cols + c] = A[r][c]` made explicit;
* the process-wide `config` flag `('weave', 'working')` and the possibility
  that a weave call raises at run time are explicit boolean inputs, and a
  method that can propagate an exception returns `Except Unit`.
-/

namespace Coregionalize

/-- `parameters_changed` (line 57): `self.B = np.dot(self.W, self.W.T) + np.diag(self.kappa)`.
`Bmat W kappa a b` is entry `B[a, b]`: `(W · Wᵀ)[a,b] = ∑ k, W[a,k] * W[b,k]`,
plus `kappa[a]` on the diagonal. -/
def Bmat {d r : ℕ} (W : Fin d → Fin r → ℚ) (kappa : Fin d → ℚ) :
    Fin d → Fin d → ℚ :=
  fun a b => (∑ k, W a k * W b k) + (if a = b then kappa a else 0)

/-- `_K_numpy` (lines 71-77), two-argument branch: `self.B[index, index2.T]`,
the broadcast gather with entry `[i,j] = B[X[i], X2[j]]`. -/
def K_numpy {d n1 n2 : ℕ} (B : Fin d → Fin d → ℚ)
    (X : Fin n1 → Fin d) (X2 : Fin n2 → Fin d) : Fin n1 → Fin n2 → ℚ :=
  fun i j => B (X i) (X2 j)

/-- `_K_numpy` (lines 71-77), `X2 is None` branch: `self.B[index, index.T]`,
entry `[i,j] = B[X[i], X[j]]`. -/
def K_numpy_noX2 {d n1 : ℕ} (B : Fin d → Fin d → ℚ)
    (X : Fin n1 → Fin d) : Fin n1 → Fin n1 → ℚ :=
  fun i j => B (X i) (X j)

/-- `_K_weave` (lines 96-107), two-argument branch.  The C code writes
`target[i + j*num_inducing] = B[output_dim*index[j] + index2[i]]` for
`i < num_inducing`, `j < N`; in row-major terms `target[j, i] = B[X[j], X2[i]]`.
As a function of (row `p`, column `q`) this is `B (X p) (X2 q)`. -/
def K_weave {d n1 n2 : ℕ} (B : Fin d → Fin d → ℚ)
    (X : Fin n1 → Fin d) (X2 : Fin n2 → Fin d) : Fin n1 → Fin n2 → ℚ :=
  fun p q => B (X p) (X2 q)

/-- `_K_weave` (lines 83-95), `X2 is None` branch.  The C code sets, for each `i`:
`target[i + i*N] = B[index[i] + output_dim*index[i]]` (diagonal, row-major
`target[i,i] = B[X[i], X[i]]`), and for `j < i`:
`target[j + i*N] = B[index[i] + output_dim*index[j]]`
(`target[i,j] = B[X[j], X[i]]`) then mirrors `target[i + j*N] = target[j + i*N]`
(`target[j,i] = B[X[j], X[i]]`).  So entry (row `p`, column `q`) is
`B (X p) (X p)` if `p = q`, `B (X q) (X p)` if `q < p` (direct write), and
`B (X p) (X q)` if `p < q` (mirrored write). -/
def K_weave_noX2 {d n1 : ℕ} (B : Fin d → Fin d → ℚ)
    (X : Fin n1 → Fin d) : Fin n1 → Fin n1 → ℚ :=
  fun p q =>
    if p = q then B (X p) (X p)
    else if q < p then B (X q) (X p)
    else B (X p) (X q)

/-- `Kdiag` (lines 111-112): `np.diag(self.B)[np.asarray(X, dtype=np.int).flatten()]`,
the diagonal of `B` gathered at the index vector. -/
def Kdiag {d n : ℕ} (B : Fin d → Fin d → ℚ) (X : Fin n → Fin d) : Fin n → ℚ :=
  fun i => (fun a => B a a) (X i)

/-- `_gradient_reduce_numpy` (lines 154-161): for each output pair `(i, j)`
the code sets `dL_dK_small[j, i] = dL_dK[index==i][:, index2==j].sum()`,
the sum of `dL_dK[r, c]` over rows `r` with `index[r] = i` and columns `c`
with `index2[c] = j`. -/
def gradient_reduce_numpy {d n1 n2 : ℕ} (dL_dK : Fin n1 → Fin n2 → ℚ)
    (index : Fin n1 → Fin d) (index2 : Fin n2 → Fin d) : Fin d → Fin d → ℚ :=
  fun j i => ∑ r, ∑ c, if index r = i ∧ index2 c = j then dL_dK r c else 0

/-- `_gradient_reduce_weave` (lines 141-152).  The C code accumulates, for
`i < num_inducing` and `j < N`:
`dL_dK_small[index[j] + output_dim*index2[i]] += dL_dK[i + j*num_inducing]`,
i.e. in row-major terms `dL_dK_small[index2[i], index[j]] += dL_dK[j, i]`,
into a zero-initialized array.  Entry `(a, b)` of the result is therefore the
sum of `dL_dK[j, i]` over the loop iterations with `index2[i] = a` and
`index[j] = b`. -/
def gradient_reduce_weave {d n1 n2 : ℕ} (dL_dK : Fin n1 → Fin n2 → ℚ)
    (index : Fin n1 → Fin d) (index2 : Fin n2 → Fin d) : Fin d → Fin d → ℚ :=
  fun a b => ∑ i : Fin n2, ∑ j : Fin n1, if index2 i = a ∧ index j = b then dL_dK j i else 0

/-- The spec's scatter-reduce, written from the spec's words
("build a (output_dim × output_dim) matrix `small` where
`small[a,b] = sum over all (i,j) with X[i]=a, X2[j]=b of dL_dK[i,j]`"),
to be compared with the source's two reduce implementations. -/
def scatter_spec {d n1 n2 : ℕ} (dL_dK : Fin n1 → Fin n2 → ℚ)
    (X : Fin n1 → Fin d) (X2 : Fin n2 → Fin d) : Fin d → Fin d → ℚ :=
  fun a b =>
    ∑ i in Finset.univ.filter (fun i => X i = a),
      ∑ j in Finset.univ.filter (fun j => X2 j = b), dL_dK i j

/-- `update_gradients_full` (line 134), the kappa gradient:
`dkappa = np.diag(dL_dK_small)` where `small` is the reduced matrix
(the diagonal is extracted before the symmetrization step). -/
def dkappa_of {d : ℕ} (small : Fin d → Fin d → ℚ) : Fin d → ℚ :=
  fun a => small a a

/-- `update_gradients_full` (line 135): `dL_dK_small += dL_dK_small.T`. -/
def small_sym {d : ℕ} (small : Fin d → Fin d → ℚ) : Fin d → Fin d → ℚ :=
  fun a b => small a b + small b a

/-- `update_gradients_full` (line 136):
`dW = (self.W[:, None, :] * dL_dK_small[:, :, None]).sum(0)`, i.e.
`dW[p, k] = ∑ c, W[c, k] * dL_dK_small[c, p]` with the symmetrized small. -/
def dW_of {d r : ℕ} (W : Fin d → Fin r → ℚ) (small : Fin d → Fin d → ℚ) :
    Fin d → Fin r → ℚ :=
  fun p k => ∑ c, W c k * small_sym small c p

/-- The gradients stored by `update_gradients_full` when the numpy reduce is
used (lines 130, 134-139): the pair `(W.gradient, kappa.gradient)`. -/
def update_gradients_full_numpy {d r n1 n2 : ℕ} (W : Fin d → Fin r → ℚ)
    (dL_dK : Fin n1 → Fin n2 → ℚ)
    (index : Fin n1 → Fin d) (index2 : Fin n2 → Fin d) :
    (Fin d → Fin r → ℚ) × (Fin d → ℚ) :=
  (dW_of W (gradient_reduce_numpy dL_dK index index2),
   dkappa_of (gradient_reduce_numpy dL_dK index index2))

/-- The gradients stored by `update_gradients_full` when the weave reduce is
used (lines 124, 134-139). -/
def update_gradients_full_weave {d r n1 n2 : ℕ} (W : Fin d → Fin r → ℚ)
    (dL_dK : Fin n1 → Fin n2 → ℚ)
    (index : Fin n1 → Fin d) (index2 : Fin n2 → Fin d) :
    (Fin d → Fin r → ℚ) × (Fin d → ℚ) :=
  (dW_of W (gradient_reduce_weave dL_dK index index2),
   dkappa_of (gradient_reduce_weave dL_dK index index2))

/-- `update_gradients_diag` (lines 163-167):
`dL_dKdiag_small = np.array([dL_dKdiag[index==i].sum() for i in xrange(output_dim)])`. -/
def dL_dKdiag_small {d n : ℕ} (dL_dKdiag : Fin n → ℚ) (index : Fin n → Fin d) :
    Fin d → ℚ :=
  fun a => ∑ i, if index i = a then dL_dKdiag i else 0

/-- `update_gradients_diag` (line 166): `self.W.gradient = 2.*self.W*dL_dKdiag_small[:, None]`. -/
def dW_diag {d r n : ℕ} (W : Fin d → Fin r → ℚ) (dL_dKdiag : Fin n → ℚ)
    (index : Fin n → Fin d) : Fin d → Fin r → ℚ :=
  fun a k => 2 * W a k * dL_dKdiag_small dL_dKdiag index a

/-- `K` (lines 59-68): if the process-wide flag `config('weave','working')` is
set, try `_K_weave`; on any exception print a warning, clear the flag, and
return `_K_numpy`; otherwise return `_K_numpy`.  `working` is the flag on
entry, `weaveRaises` models whether the weave call raises at run time.
Returns the outcome (`Except.error` would model an uncaught exception) and
the flag after the call. -/
def K_call {d n1 n2 : ℕ} (B : Fin d → Fin d → ℚ)
    (X : Fin n1 → Fin d) (X2 : Fin n2 → Fin d) (working weaveRaises : Bool) :
    Except Unit (Fin n1 → Fin n2 → ℚ) × Bool :=
  if working then
    if weaveRaises then (Except.ok (K_numpy B X X2), false)
    else (Except.ok (K_weave B X X2), true)
  else (Except.ok (K_numpy B X X2), false)

/-- `K` (lines 59-68) with `X2 = None`, same dispatch as `K_call`. -/
def K_call_noX2 {d n1 : ℕ} (B : Fin d → Fin d → ℚ)
    (X : Fin n1 → Fin d) (working weaveRaises : Bool) :
    Except Unit (Fin n1 → Fin n1 → ℚ) × Bool :=
  if working then
    if weaveRaises then (Except.ok (K_numpy_noX2 B X), false)
    else (Except.ok (K_weave_noX2 B X), true)
  else (Except.ok (K_numpy_noX2 B X), false)

/-- `update_gradients_full` (lines 121-130), the reduce dispatch.  If the
flag is set, try `_gradient_reduce_weave`; on an exception the handler prints,
clears the flag, and then calls `_gradient_reduce_weave` AGAIN (line 128) —
not the numpy reduce — so when the weave path raises in this process the
second call raises too and the exception propagates out of
`update_gradients_full` (modelled as `Except.error ()`).  Otherwise the numpy
reduce is used and the computation completes with the stored gradients. -/
def update_gradients_full_call {d r n1 n2 : ℕ} (W : Fin d → Fin r → ℚ)
    (dL_dK : Fin n1 → Fin n2 → ℚ)
    (index : Fin n1 → Fin d) (index2 : Fin n2 → Fin d)
    (working weaveRaises : Bool) :
    Except Unit ((Fin d → Fin r → ℚ) × (Fin d → ℚ)) × Bool :=
  if working then
    if weaveRaises then (Except.error (), false)
    else
      (Except.ok (update_gradients_full_weave W dL_dK index index2), true)
  else
    (Except.ok (update_gradients_full_numpy W dL_dK index index2), false)

/-- The error raised by a failed `assert` in `__init__` (lines 47 and 52);
the spec calls it a ShapeMismatch error. -/
inductive InitError : Type
  | shapeMismatchW : InitError
  | shapeMismatchKappa : InitError
deriving DecidableEq, Repr

/-- The state built by a successful `__init__` (lines 38-54): whether the
unusual-rank warning was printed, and the linked parameters `W` and `kappa`.
Arrays are lists here because `__init__` must inspect the shapes of its
(possibly mis-shaped) inputs. -/
structure InitState : Type where
  warned : Bool
  W : List (List ℚ)
  kappa : List ℚ
deriving DecidableEq, Repr

/-- Shape check of line 47: `W.shape == (self.output_dim, self.rank)`. -/
def Wshape_ok (output_dim rank : ℕ) (W : List (List ℚ)) : Prop :=
  W.length = output_dim ∧ ∀ row ∈ W, row.length = rank

instance (output_dim rank : ℕ) (W : List (List ℚ)) :
    Decidable (Wshape_ok output_dim rank W) := by
  unfold Wshape_ok; infer_instance

/-- `__init__` (lines 38-54).  `Wrand` stands for the random draw
`0.5*np.random.randn(output_dim, rank)/np.sqrt(rank)` used when `W is None`
(its value is an oracle input of the model; it always has the right shape).
The warning is printed when `rank > output_dim` (line 42); a supplied `W`
must have shape `(output_dim, rank)` (line 47) and a supplied `kappa` shape
`(output_dim,)` (line 52), else the `assert` raises; an absent `kappa` is
initialized to `0.5*np.ones(output_dim)` (line 50). -/
def coregionalize_init (output_dim rank : ℕ)
    (Wopt : Option (List (List ℚ))) (kappaOpt : Option (List ℚ))
    (Wrand : List (List ℚ)) : Except InitError InitState :=
  match Wopt, kappaOpt with
  | none, none =>
      Except.ok ⟨decide (rank > output_dim), Wrand,
        List.replicate output_dim (1/2 : ℚ)⟩
  | none, some kp =>
      if kp.length = output_dim then
        Except.ok ⟨decide (rank > output_dim), Wrand, kp⟩
      else Except.error InitError.shapeMismatchKappa
  | some w, none =>
      if Wshape_ok output_dim rank w then
        Except.ok ⟨decide (rank > output_dim), w,
          List.replicate output_dim (1/2 : ℚ)⟩
      else Except.error InitError.shapeMismatchW
  | some w, some kp =>
      if Wshape_ok output_dim rank w then
        if kp.length = output_dim then
          Except.ok ⟨decide (rank > output_dim), w, kp⟩
        else Except.error InitError.shapeMismatchKappa
      else Except.error InitError.shapeMismatchW

/-- numpy integer ("fancy") indexing of an axis of length `d` with an `Int`
entry `v`, as performed by `self.B[index, index2.T]` (line 74/77) and
`np.diag(self.B)[...]` (line 112): `0 ≤ v < d` selects position `v`;
`-d ≤ v < 0` selects position `d + v` (wrap-around); anything else raises
IndexError (`none`). -/
def npIndex (d : ℕ) (v : ℤ) : Option (Fin d) :=
  if h : 0 ≤ v ∧ v < (d : ℤ) then
    some ⟨v.toNat, by omega⟩
  else if h2 : -(d : ℤ) ≤ v ∧ v < 0 then
    some ⟨(v + (d : ℤ)).toNat, by omega⟩
  else none

/-- Resolution of a whole integer index vector: numpy raises IndexError
(`none`) as soon as one entry is out of `[-d, d)`, otherwise yields the
resolved positions. -/
def npGather (d : ℕ) : List ℤ → Option (List (Fin d))
  | [] => some []
  | v :: rest =>
      match npIndex d v, npGather d rest with
      | some i, some is => some (i :: is)
      | _, _ => none

/-- `_K_numpy` (lines 71-77) on raw integer index vectors, with numpy's
bounds/wrap-around behaviour made explicit: the gather
`B[index, index2.T]` succeeds iff every entry resolves under `npIndex`,
and then entry `[i, j]` is `B` at the resolved positions. -/
def K_numpy_checked (d : ℕ) (B : Fin d → Fin d → ℚ) (X X2 : List ℤ) :
    Option (List (List ℚ)) :=
  match npGather d X, npGather d X2 with
  | some ix, some ix2 => some (ix.map (fun i => ix2.map (fun j => B i j)))
  | _, _ => none

/-- `Kdiag` (lines 111-112) on a raw integer index vector:
`np.diag(self.B)[X]` succeeds iff every entry resolves under `npIndex`. -/
def Kdiag_checked (d : ℕ) (B : Fin d → Fin d → ℚ) (X : List ℤ) :
    Option (List ℚ) :=
  (npGather d X).map (fun ix => ix.map (fun i => B i i))

/-! ### Helper lemmas -/

/-- `B` is symmetric. -/
lemma Bmat_symm {d r : ℕ} (W : Fin d → Fin r → ℚ) (kappa : Fin d → ℚ)
    (a b : Fin d) : Bmat W kappa a b = Bmat W kappa b a := by
  unfold Bmat
  congr 1
  · exact Finset.sum_congr rfl fun k _ => mul_comm _ _
  · by_cases h : a = b
    · subst h; rfl
    · rw [if_neg h, if_neg (Ne.symm h)]

/-- The numpy reduce is the transpose of the spec's scatter-reduce. -/
lemma gradient_reduce_numpy_eq {d n1 n2 : ℕ} (dL_dK : Fin n1 → Fin n2 → ℚ)
    (X : Fin n1 → Fin d) (X2 : Fin n2 → Fin d) (a b : Fin d) :
    gradient_reduce_numpy dL_dK X X2 a b = scatter_spec dL_dK X X2 b a := by
  unfold gradient_reduce_numpy scatter_spec
  rw [Finset.sum_filter]
  refine Finset.sum_congr rfl fun r _ => ?_
  rw [Finset.sum_filter]
  by_cases h : X r = b
  · simp only [h, true_and, if_true]
  · simp [h]

/-- The weave reduce agrees with the numpy reduce. -/
lemma gradient_reduce_weave_eq_numpy {d n1 n2 : ℕ} (dL_dK : Fin n1 → Fin n2 → ℚ)
    (X : Fin n1 → Fin d) (X2 : Fin n2 → Fin d) :
    gradient_reduce_weave dL_dK X X2 = gradient_reduce_numpy dL_dK X X2 := by
  funext a b
  unfold gradient_reduce_weave gradient_reduce_numpy
  rw [Finset.sum_comm]
  exact Finset.sum_congr rfl fun j _ => Finset.sum_congr rfl fun i _ =>
    if_congr and_comm rfl rfl

/-- The symmetric-case weave kernel agrees with the numpy gather when `B` is
the coregionalization matrix (which is symmetric). -/
lemma K_weave_noX2_eq_numpy {d r n1 : ℕ} (W : Fin d → Fin r → ℚ)
    (kappa : Fin d → ℚ) (X : Fin n1 → Fin d) :
    K_weave_noX2 (Bmat W kappa) X = K_numpy_noX2 (Bmat W kappa) X := by
  funext p q
  unfold K_weave_noX2 K_numpy_noX2
  by_cases h : p = q
  · rw [if_pos h, h]
  · rw [if_neg h]
    by_cases h2 : q < p
    · rw [if_pos h2, Bmat_symm]
    · rw [if_neg h2]

/-- Expansion of the quadratic form of `B`: a sum of squares plus the
kappa-weighted squares. -/
lemma Bmat_quad_expand {d r : ℕ} (W : Fin d → Fin r → ℚ) (kappa : Fin d → ℚ)
    (x : Fin d → ℚ) :
    ∑ a, ∑ b, x a * Bmat W kappa a b * x b
      = (∑ k, (∑ a, x a * W a k) * (∑ a, x a * W a k))
        + ∑ a, kappa a * (x a * x a) := by
  unfold Bmat
  have h1 : ∀ a b : Fin d,
      x a * ((∑ k, W a k * W b k) + (if a = b then kappa a else 0)) * x b
        = (∑ k, (x a * W a k) * (x b * W b k))
          + x a * (if a = b then kappa a else 0) * x b := by
    intro a b
    rw [mul_add, add_mul, Finset.mul_sum, Finset.sum_mul]
    congr 1
    exact Finset.sum_congr rfl fun k _ => by ring
  simp only [h1, Finset.sum_add_distrib]
  congr 1
  · calc ∑ a, ∑ b, ∑ k, (x a * W a k) * (x b * W b k)
        = ∑ a, ∑ k, ∑ b, (x a * W a k) * (x b * W b k) :=
          Finset.sum_congr rfl fun a _ => Finset.sum_comm
      _ = ∑ k, ∑ a, ∑ b, (x a * W a k) * (x b * W b k) := Finset.sum_comm
      _ = ∑ k, (∑ a, x a * W a k) * (∑ a, x a * W a k) := by
          refine Finset.sum_congr rfl fun k _ => ?_
          rw [Finset.sum_mul]
          exact Finset.sum_congr rfl fun a _ => by rw [Finset.mul_sum]
  · refine Finset.sum_congr rfl fun a _ => ?_
    rw [Finset.sum_eq_single a]
    · rw [if_pos rfl]; ring
    · intro b _ hb
      rw [if_neg (Ne.symm hb), mul_zero, zero_mul]
    · intro ha; exact absurd (Finset.mem_univ a) ha

/-- An out-of-range entry makes the whole gather fail. -/
lemma npGather_eq_none {d : ℕ} {X : List ℤ} {v : ℤ} (hv : v ∈ X)
    (h : npIndex d v = none) : npGather d X = none := by
  induction X with
  | nil => cases hv
  | cons x xs ih =>
      rcases List.mem_cons.mp hv with hx | hx
      · subst hx
        unfold npGather
        rw [h]
      · unfold npGather
        rw [ih hx]
        cases npIndex d x <;> rfl

/-- If every entry is in `[-d, d)` the gather succeeds. -/
lemma npGather_isSome {d : ℕ} {X : List ℤ}
    (h : ∀ u ∈ X, -(d : ℤ) ≤ u ∧ u < (d : ℤ)) :
    (npGather d X).isSome = true := by
  induction X with
  | nil => rfl
  | cons x xs ih =>
      have hx := h x (List.mem_cons_self x xs)
      have hxs := ih fun u hu => h u (List.mem_cons_of_mem x hu)
      have hidx : (npIndex d x).isSome = true := by
        unfold npIndex
        by_cases h0 : 0 ≤ x ∧ x < (d : ℤ)
        · rw [dif_pos h0]; rfl
        · rw [dif_neg h0, dif_pos ⟨hx.1, by omega⟩]; rfl
      unfold npGather
      rcases Option.isSome_iff_exists.mp hidx with ⟨i, hi⟩
      rcases Option.isSome_iff_exists.mp hxs with ⟨is, his⟩
      rw [hi, his]
      rfl

/-! ### Claim theorems -/

/-- C1, counterexample: with `output_dim = 2`, `X = [0]`, `X2 = [1]`,
`dL_dK = [[1]]`, the matrix computed by the gradient-reduce step is NOT the
spec's scatter-reduce `small[a,b] = ∑_{X[i]=a, X2[j]=b} dL_dK[i,j]`: the
code puts the single contribution at entry `(1, 0)`, the claim at `(0, 1)`. -/
theorem C1_counterexample :
    @gradient_reduce_numpy 2 1 1 ![![(1 : ℚ)]] ![0] ![1]
      ≠ @scatter_spec 2 1 1 ![![(1 : ℚ)]] ![0] ![1] := by
  intro h
  have h10 := congrFun (congrFun h 1) 0
  simp [gradient_reduce_numpy, scatter_spec, Finset.sum_filter,
    Fin.sum_univ_one] at h10

/-- C1, amended: for in-range index vectors, the reduction matrix computed by
the gradient-reduce step — by the numpy strategy and by the weave strategy
alike — is the TRANSPOSE of the spec's scatter-reduce:
`small[a,b] = ∑ dL_dK[i,j] over X[i] = b and X2[j] = a`. -/
theorem C1_gradient_reduce_is_transposed_scatter {d n1 n2 : ℕ}
    (dL_dK : Fin n1 → Fin n2 → ℚ) (X : Fin n1 → Fin d) (X2 : Fin n2 → Fin d) :
    (∀ a b, gradient_reduce_numpy dL_dK X X2 a b = scatter_spec dL_dK X X2 b a)
    ∧ (∀ a b, gradient_reduce_weave dL_dK X X2 a b = scatter_spec dL_dK X X2 b a) := by
  refine ⟨fun a b => gradient_reduce_numpy_eq dL_dK X X2 a b, fun a b => ?_⟩
  rw [gradient_reduce_weave_eq_numpy]
  exact gradient_reduce_numpy_eq dL_dK X X2 a b

/-- C2: after `update_gradients_full` (numpy reduce or weave reduce), the
stored kappa gradient is the diagonal of the spec's scatter-reduce `small`
(`kappa.gradient[a] = ∑ dL_dK[i,j] over X[i] = a, X2[j] = a`), and the stored
W gradient is `(small + smallᵀ) · W`:
`W.gradient[p,k] = ∑ c, (small[p,c] + small[c,p]) * W[c,k]`. -/
theorem C2_update_gradients_full {d r n1 n2 : ℕ} (W : Fin d → Fin r → ℚ)
    (dL_dK : Fin n1 → Fin n2 → ℚ) (X : Fin n1 → Fin d) (X2 : Fin n2 → Fin d) :
    ((∀ a, (update_gradients_full_numpy W dL_dK X X2).2 a
        = scatter_spec dL_dK X X2 a a)
      ∧ (∀ p k, (update_gradients_full_numpy W dL_dK X X2).1 p k
        = ∑ c, (scatter_spec dL_dK X X2 p c + scatter_spec dL_dK X X2 c p) * W c k))
    ∧ update_gradients_full_weave W dL_dK X X2
        = update_gradients_full_numpy W dL_dK X X2 := by
  refine ⟨⟨fun a => ?_, fun p k => ?_⟩, ?_⟩
  · exact gradient_reduce_numpy_eq dL_dK X X2 a a
  · have hLHS : (update_gradients_full_numpy W dL_dK X X2).1 p k
        = ∑ c, W c k * (gradient_reduce_numpy dL_dK X X2 c p
            + gradient_reduce_numpy dL_dK X X2 p c) := rfl
    rw [hLHS]
    refine Finset.sum_congr rfl fun c _ => ?_
    rw [gradient_reduce_numpy_eq dL_dK X X2 c p,
      gradient_reduce_numpy_eq dL_dK X X2 p c]
    ring
  · unfold update_gradients_full_weave update_gradients_full_numpy
    rw [gradient_reduce_weave_eq_numpy]

/-- C3: with `B` as recomputed by `parameters_changed`, `K` (whatever the
state of the weave flag) returns the `(n1, n2)` gather with entry
`[i,j] = B[X[i], X2[j]]`, never an exception; `K` with `X2` omitted returns
exactly `K(X, X)`; and `K(X, X2)[i,j] = K(X2, X)[j,i]`. -/
theorem C3_K_is_gather {d r n1 n2 : ℕ} (W : Fin d → Fin r → ℚ)
    (kappa : Fin d → ℚ) (X : Fin n1 → Fin d) (X2 : Fin n2 → Fin d)
    (working weaveRaises : Bool) :
    (K_call (Bmat W kappa) X X2 working weaveRaises).1
        = Except.ok (K_numpy (Bmat W kappa) X X2)
    ∧ (∀ i j, K_numpy (Bmat W kappa) X X2 i j = Bmat W kappa (X i) (X2 j))
    ∧ (K_call_noX2 (Bmat W kappa) X working weaveRaises).1
        = Except.ok (K_numpy (Bmat W kappa) X X)
    ∧ (∀ i j, K_numpy (Bmat W kappa) X X2 i j
        = K_numpy (Bmat W kappa) X2 X j i) := by
  refine ⟨?_, fun i j => rfl, ?_, fun i j => Bmat_symm W kappa (X i) (X2 j)⟩
  · unfold K_call
    cases working
    · rfl
    · cases weaveRaises <;> rfl
  · unfold K_call_noX2
    cases working <;> cases weaveRaises <;>
      first
        | rfl
        | exact congrArg Except.ok (K_weave_noX2_eq_numpy W kappa X)

/-- C4: at the concrete state where the weave flag is set and the weave path
raises, `update_gradients_full` does NOT fall back to the numpy reduce: its
except-handler re-invokes `_gradient_reduce_weave`, so the exception escapes
to the caller (with the flag cleared) — contradicting the code's own
"Falling back to (slower) numpy implementation" message and the spec.  `K`
under the same failure is caught and returns the numpy gather. -/
theorem C4_weave_failure_escapes_update_gradients_full :
    ((@update_gradients_full_call 2 1 1 1 ![![(1 : ℚ)], ![0]] ![![(1 : ℚ)]]
        ![0] ![1] true true).1 = Except.error ()
      ∧ (@update_gradients_full_call 2 1 1 1 ![![(1 : ℚ)], ![0]] ![![(1 : ℚ)]]
        ![0] ![1] true true).2 = false)
    ∧ ((@K_call 2 1 1 (Bmat ![![(1 : ℚ)], ![0]] ![1, 1]) ![0] ![1] true true).1
        = Except.ok (K_numpy (Bmat ![![(1 : ℚ)], ![0]] ![1, 1]) ![0] ![1])
      ∧ (@K_call 2 1 1 (Bmat ![![(1 : ℚ)], ![0]] ![1, 1]) ![0] ![1] true true).2
        = false) :=
  ⟨⟨rfl, rfl⟩, ⟨rfl, rfl⟩⟩

/-- C5: with `B` the coregionalization matrix, the weave and numpy kernel
implementations return equal matrices, both in the general two-argument case
and in the symmetric `X2`-omitted case (where weave computes only `i ≤ j` and
mirrors); likewise the two gradient-reduce strategies agree. -/
theorem C5_weave_refines_numpy {d r n1 n2 : ℕ} (W : Fin d → Fin r → ℚ)
    (kappa : Fin d → ℚ) (X : Fin n1 → Fin d) (X2 : Fin n2 → Fin d)
    (dL_dK : Fin n1 → Fin n2 → ℚ) :
    K_weave (Bmat W kappa) X X2 = K_numpy (Bmat W kappa) X X2
    ∧ K_weave_noX2 (Bmat W kappa) X = K_numpy_noX2 (Bmat W kappa) X
    ∧ gradient_reduce_weave dL_dK X X2 = gradient_reduce_numpy dL_dK X X2 :=
  ⟨rfl, K_weave_noX2_eq_numpy W kappa X,
    gradient_reduce_weave_eq_numpy dL_dK X X2⟩

/-- C6: `Kdiag(X)` has length `len(X)` (its type), entry `i` equal to
`B[X[i], X[i]]`, and therefore equal to `K(X, X)[i, i]` for all `i`. -/
theorem C6_Kdiag_is_diagonal {d n : ℕ} (B : Fin d → Fin d → ℚ)
    (X : Fin n → Fin d) :
    (∀ i, Kdiag B X i = B (X i) (X i))
    ∧ (∀ i, Kdiag B X i = K_numpy B X X i i) :=
  ⟨fun _ => rfl, fun _ => rfl⟩

/-- C7: after `parameters_changed`, `B = W·Wᵀ + diag(kappa)` entrywise; `B`
is symmetric, and when every entry of kappa is non-negative `B` is positive
semi-definite: `xᵀ B x ≥ 0` for every vector `x`. -/
theorem C7_B_symmetric_psd {d r : ℕ} (W : Fin d → Fin r → ℚ)
    (kappa : Fin d → ℚ) :
    (∀ a b, Bmat W kappa a b
        = (∑ k, W a k * W b k) + (if a = b then kappa a else 0))
    ∧ (∀ a b, Bmat W kappa a b = Bmat W kappa b a)
    ∧ ((∀ a, 0 ≤ kappa a) → ∀ x : Fin d → ℚ,
        0 ≤ ∑ a, ∑ b, x a * Bmat W kappa a b * x b) := by
  refine ⟨fun a b => rfl, Bmat_symm W kappa, fun hk x => ?_⟩
  rw [Bmat_quad_expand]
  have h1 : 0 ≤ ∑ k, (∑ a, x a * W a k) * (∑ a, x a * W a k) :=
    Finset.sum_nonneg fun k _ => mul_self_nonneg _
  have h2 : 0 ≤ ∑ a, kappa a * (x a * x a) :=
    Finset.sum_nonneg fun a _ => mul_nonneg (hk a) (mul_self_nonneg _)
  exact add_nonneg h1 h2

/-- C7, witness: the positive-semi-definiteness conclusion at
`output_dim = rank = 1`, `W = [[2]]`, `kappa = [1]`, `x = [1]`. -/
theorem C7_B_symmetric_psd_witness :
    (0 : ℚ) ≤ ∑ a : Fin 1, ∑ b : Fin 1,
      (![(1 : ℚ)]) a * Bmat ![![(2 : ℚ)]] ![(1 : ℚ)] a b * (![(1 : ℚ)]) b :=
  (C7_B_symmetric_psd ![![(2 : ℚ)]] ![(1 : ℚ)]).2.2
    (by intro a; fin_cases a <;> norm_num) ![(1 : ℚ)]

/-- C8: after `update_gradients_diag`, with `s[a] = ∑ dL_dKdiag[i] over
X[i] = a`, the stored kappa gradient is `s` and the stored W gradient is
`W.gradient[a, k] = 2 * W[a, k] * s[a]`. -/
theorem C8_update_gradients_diag {d r n : ℕ} (W : Fin d → Fin r → ℚ)
    (dL_dKdiag : Fin n → ℚ) (X : Fin n → Fin d) :
    (∀ a, dL_dKdiag_small dL_dKdiag X a
        = ∑ i in Finset.univ.filter (fun i => X i = a), dL_dKdiag i)
    ∧ (∀ a k, dW_diag W dL_dKdiag X a k
        = 2 * W a k * ∑ i in Finset.univ.filter (fun i => X i = a), dL_dKdiag i) := by
  have h : ∀ a, dL_dKdiag_small dL_dKdiag X a
      = ∑ i in Finset.univ.filter (fun i => X i = a), dL_dKdiag i := by
    intro a
    unfold dL_dKdiag_small
    rw [Finset.sum_filter]
  exact ⟨h, fun a k => by unfold dW_diag; rw [h a]⟩

/-- C9, counterexample: the claim says `rank ≥ output_dim` makes construction
emit the warning; at `output_dim = rank = 1` (so `rank ≥ output_dim` holds)
construction succeeds WITHOUT the warning, since the code tests
`rank > output_dim` strictly. -/
theorem C9_counterexample :
    1 ≥ 1 ∧ coregionalize_init 1 1 none none [[(0 : ℚ)]]
      = Except.ok ⟨false, [[(0 : ℚ)]], [(1/2 : ℚ)]⟩ :=
  ⟨le_refl 1, rfl⟩

/-- C9, amended: construction fails with a shape-mismatch error iff a
supplied `W` does not have shape `(output_dim, rank)` or a supplied `kappa`
does not have length `output_dim`; on success the warning was emitted iff
`rank > output_dim` (strictly); an absent `kappa` is initialized to `0.5`
for every entry. -/
theorem C9_init_shape_and_warning (output_dim rank : ℕ)
    (Wopt : Option (List (List ℚ))) (kappaOpt : Option (List ℚ))
    (Wrand : List (List ℚ)) :
    ((∃ e, coregionalize_init output_dim rank Wopt kappaOpt Wrand
          = Except.error e)
       ↔ (∃ w, Wopt = some w ∧ ¬ Wshape_ok output_dim rank w)
         ∨ (∃ kp, kappaOpt = some kp ∧ kp.length ≠ output_dim))
    ∧ (∀ s, coregionalize_init output_dim rank Wopt kappaOpt Wrand
          = Except.ok s → (s.warned = true ↔ output_dim < rank))
    ∧ (kappaOpt = none →
        ∀ s, coregionalize_init output_dim rank Wopt kappaOpt Wrand
            = Except.ok s → s.kappa = List.replicate output_dim (1/2 : ℚ)) := by
  rcases Wopt with _ | w
  · rcases kappaOpt with _ | kp
    · simp only [coregionalize_init]
      refine ⟨by simp, fun s hs => ?_, fun _ s hs => ?_⟩
      · injection hs with h
        subst h
        simp [decide_eq_true_eq]
      · injection hs with h
        subst h
        rfl
    · simp only [coregionalize_init]
      by_cases hkp : kp.length = output_dim
      · rw [if_pos hkp]
        refine ⟨by simp [hkp], fun s hs => ?_, fun hnone => Option.noConfusion hnone⟩
        injection hs with h
        subst h
        simp [decide_eq_true_eq]
      · rw [if_neg hkp]
        exact ⟨by simp [hkp], fun s hs => Except.noConfusion hs, fun hnone => Option.noConfusion hnone⟩
  · by_cases hw : Wshape_ok output_dim rank w
    · rcases kappaOpt with _ | kp
      · simp only [coregionalize_init]
        rw [if_pos hw]
        refine ⟨by simp [hw], fun s hs => ?_, fun _ s hs => ?_⟩
        · injection hs with h
          subst h
          simp [decide_eq_true_eq]
        · injection hs with h
          subst h
          rfl
      · simp only [coregionalize_init]
        rw [if_pos hw]
        by_cases hkp : kp.length = output_dim
        · rw [if_pos hkp]
          refine ⟨by simp [hw, hkp], fun s hs => ?_, fun hnone => Option.noConfusion hnone⟩
          injection hs with h
          subst h
          simp [decide_eq_true_eq]
        · rw [if_neg hkp]
          exact ⟨by simp [hkp], fun s hs => Except.noConfusion hs, fun hnone => Option.noConfusion hnone⟩
    · rcases kappaOpt with _ | kp
      · simp only [coregionalize_init]
        rw [if_neg hw]
        exact ⟨by simp [hw], fun s hs => Except.noConfusion hs, fun _ s hs => Except.noConfusion hs⟩
      · simp only [coregionalize_init]
        rw [if_neg hw]
        exact ⟨by simp [hw], fun s hs => Except.noConfusion hs, fun hnone => Option.noConfusion hnone⟩

/-- C9, witness: at `output_dim = 2`, `rank = 3`, no supplied parameters,
construction succeeds with the warning set (since `3 > 2`) and
`kappa = [0.5, 0.5]`. -/
theorem C9_init_shape_and_warning_witness :
    (InitState.mk true [[(0 : ℚ)]] [(1/2 : ℚ), (1/2 : ℚ)]).warned = true ↔ 2 < 3 :=
  (C9_init_shape_and_warning 2 3 none none [[(0 : ℚ)]]).2.1
    (InitState.mk true [[(0 : ℚ)]] [(1/2 : ℚ), (1/2 : ℚ)]) rfl

/-- C10: in the baseline numpy path on raw integer index vectors, an entry
`v ≥ output_dim` makes `K` and `Kdiag` raise IndexError (return `none`);
an entry `v` with `-output_dim ≤ v < 0` resolves without error to position
`output_dim + v` (wrap-around); and when every entry is in
`[-output_dim, output_dim)` the gather succeeds. -/
theorem C10_numpy_index_bounds (d : ℕ) (B : Fin d → Fin d → ℚ) (X : List ℤ)
    (v : ℤ) (hv : v ∈ X) :
    ((d : ℤ) ≤ v →
      Kdiag_checked d B X = none ∧ ∀ X2, K_numpy_checked d B X X2 = none)
    ∧ (-(d : ℤ) ≤ v → v < 0 →
        ∃ i : Fin d, npIndex d v = some i ∧ (i : ℤ) = (d : ℤ) + v)
    ∧ ((∀ u ∈ X, -(d : ℤ) ≤ u ∧ u < (d : ℤ)) →
        (Kdiag_checked d B X).isSome = true) := by
  refine ⟨fun hge => ?_, fun h1 h2 => ?_, fun hall => ?_⟩
  · have hnone : npIndex d v = none := by
      unfold npIndex
      rw [dif_neg (by omega), dif_neg (by omega)]
    have hg := npGather_eq_none hv hnone
    constructor
    · unfold Kdiag_checked
      rw [hg]
      rfl
    · intro X2
      unfold K_numpy_checked
      rw [hg]
  · refine ⟨⟨(v + (d : ℤ)).toNat, by omega⟩, ?_, ?_⟩
    · unfold npIndex
      rw [dif_neg (by omega), dif_pos ⟨h1, h2⟩]
    · show (((v + (d : ℤ)).toNat : ℕ) : ℤ) = (d : ℤ) + v
      rw [Int.toNat_of_nonneg (by omega)]
      ring
  · unfold Kdiag_checked
    rcases Option.isSome_iff_exists.mp (npGather_isSome hall) with ⟨is, his⟩
    rw [his]
    rfl

/-- C10, witness: with `output_dim = 2` and `X = [-1]`, the entry `-1` is in
range below zero and resolves to position `2 + (-1) = 1`. -/
theorem C10_numpy_index_bounds_witness :
    ∃ i : Fin 2, npIndex 2 (-1) = some i ∧ (i : ℤ) = (2 : ℤ) + (-1) :=
  ((C10_numpy_index_bounds 2 (fun _ _ => 0) [-1] (-1) (by decide)).2.1)
    (by decide) (by decide)

end Coregionalize
